import Mathlib

/-!
Verification development for the snmp_r1d1 Home Assistant integration.

The Python sources under custom_components/snmp_r1d1/ are shallowly embedded
below: dictionaries become association lists keyed by strings, Python None
becomes Option, timestamps become rationals, and the SNMP device is an
oracle argument mapping an OID string to the outcome of the corresponding
protocol call.  Each definition carries a comment naming the source
function it translates.
-/

namespace Snmp

/-! ### Association lists modelling Python dictionaries -/

/-- Association list keyed by strings; models a Python dict (insertion order
    preserved, assignment replaces an existing key in place). -/
abbrev AListT (α : Type) := List (String × α)

/-- Dictionary lookup, d.get(k). -/
def aget {α : Type} : AListT α → String → Option α
  | [], _ => none
  | kv :: rest, k => if kv.1 = k then some kv.2 else aget rest k

/-- Dictionary assignment, d[k] = v. -/
def aset {α : Type} : AListT α → String → α → AListT α
  | [], k, v => [(k, v)]
  | kv :: rest, k, v => if kv.1 = k then (k, v) :: rest else kv :: aset rest k v

theorem aget_aset_self {α : Type} (l : AListT α) (k : String) (v : α) :
    aget (aset l k v) k = some v := by
  induction l with
  | nil => simp [aset, aget]
  | cons kv rest ih =>
      by_cases hk : kv.1 = k <;> simp [aset, aget, hk, ih]

/-! ### Python numeric parsing (int() and float() on strings) -/

/-- Strip leading and trailing whitespace from a character list (the
    whitespace tolerance of Python int() and float()). -/
def pyStrip (cs : List Char) : List Char :=
  ((cs.dropWhile Char.isWhitespace).reverse.dropWhile Char.isWhitespace).reverse

/-- Split a character list on a separator character, Python str.split with
    a one-character separator (the result list is never empty). -/
def splitCharsOn (sep : Char) : List Char → List (List Char)
  | [] => [[]]
  | c :: rest =>
    let r := splitCharsOn sep rest
    if c = sep then [] :: r
    else (c :: r.headD []) :: r.tail

/-- Python s.split with a dot separator, as strings. -/
def splitDots (s : String) : List String := (splitCharsOn '.' s.data).map String.mk

/-- Parse a nonempty all-digit character list as a natural number. -/
def parseDigits (cs : List Char) : Option Nat :=
  if cs.isEmpty then none
  else cs.foldlM (fun acc c => if c.isDigit then some (acc * 10 + (c.toNat - 48)) else none) 0

/-- Python int(s) on decimal strings: optional surrounding whitespace,
    optional sign, decimal digits. -/
def parsePyInt (s : String) : Option Int :=
  match pyStrip s.data with
  | '-' :: rest => (parseDigits rest).map (fun n => -(n : Int))
  | '+' :: rest => (parseDigits rest).map (fun n => (n : Int))
  | cs => (parseDigits cs).map (fun n => (n : Int))

/-- Digit-list value (no validity check; callers check isDigit first). -/
def digitsVal (cs : List Char) : Nat :=
  cs.foldl (fun a c => a * 10 + (c.toNat - 48)) 0

/-- Python float(s) on plain decimal strings: optional surrounding
    whitespace, optional sign, digits with an optional fractional part. -/
def parsePyFloat (s : String) : Option Rat :=
  let core : List Char → Option Rat := fun cs =>
    let ip := cs.takeWhile (fun c => c ≠ '.')
    match cs.dropWhile (fun c => c ≠ '.') with
    | [] => (parseDigits ip).map (fun n => (n : Rat))
    | c :: fp =>
      if c = '.' then
        if ip.isEmpty ∧ fp.isEmpty then none
        else if ip.all Char.isDigit ∧ fp.all Char.isDigit then
          some ((digitsVal ip : Rat) + (digitsVal fp : Rat) / ((10 : Rat) ^ fp.length))
        else none
      else none
  match pyStrip s.data with
  | '-' :: rest => (core rest).map (fun q => -q)
  | '+' :: rest => core rest
  | cs => core cs

/-- Python round-half-to-even of a rational to an integer (round()). -/
def roundHalfEven (q : Rat) : Int :=
  let f : Int := ⌊q⌋
  let r : Rat := q - (f : Rat)
  if r < 1 / 2 then f
  else if 1 / 2 < r then f + 1
  else if f % 2 = 0 then f else f + 1

/-- Python round(q, 2). -/
def rnd2 (q : Rat) : Rat := ((roundHalfEven (q * 100) : Int) : Rat) / 100

/-- Python s.startswith(pre), as a prefix test on the character data. -/
def pyStartsWith (s pre : String) : Bool := pre.data.isPrefixOf s.data

/-- Python s.lstrip(.): drop every leading dot. -/
def stripDots (s : String) : String := String.mk (s.data.dropWhile (fun c => c = '.'))

/-! ### snmp.py: SnmpClient.async_set (write-and-verify) -/

/-- One attempt of SnmpClient.async_set (snmp.py lines 218-243): ackError is
    true when the SET reply carried error_indication or error_status (the
    raised-exception path); verified is the follow-up async_get result used
    for verification (none models a failed verification read). -/
structure SetAttempt where
  ackError : Bool
  verified : Option String
  deriving DecidableEq

/-- SnmpClient.async_set over a transcript of attempt outcomes, one entry
    per attempt the retry loop may execute (retries+1 entries).  An attempt
    whose acknowledgment errored retries if an attempt remains and fails
    otherwise; an attempt whose acknowledgment is clean returns immediately,
    succeeding iff the verification read echoes the written value. -/
def asyncSetModel (written : String) : List SetAttempt → Bool
  | [] => false
  | a :: rest =>
      if a.ackError then asyncSetModel written rest
      else decide (a.verified = some written)

/-- First attempt of the transcript whose acknowledgment did not error:
    the attempt at which async_set stops retrying and decides. -/
def firstCleanAck : List SetAttempt → Option SetAttempt
  | [] => none
  | a :: rest => if a.ackError then firstCleanAck rest else some a

/-! ### snmp.py: SnmpClient.async_get_subtree_idx_list -/

/-- Outcome of one GETNEXT issued by the index-discovery walk
    (snmp.py lines 381-414): err covers error_indication/error_status and
    transport exceptions, noRes an empty or null var-bind, next a decoded
    next OID. -/
inductive NextResp where
  | err : NextResp
  | noRes : NextResp
  | next (oid : String) : NextResp
  deriving DecidableEq

/-- The while-loop of async_get_subtree_idx_list: walks responses, keeping
    trailing numeric suffixes under the normalized base, stopping on any
    error, out-of-subtree OID, non-numeric suffix, index above maxPorts, or
    once maxPorts indices are collected.  Returns the accumulator built so
    far at every stop. -/
def idxLoop (nb : String) (m : Nat) : List NextResp → List String → Nat → List String
  | [], acc, _ => acc
  | r :: rest, acc, cnt =>
    if cnt < m then
      match r with
      | .err => acc
      | .noRes => acc
      | .next oid =>
        let comps := splitDots oid
        let nbc := splitDots nb
        if comps.length ≤ nbc.length then acc
        else if String.intercalate (".") (comps.take nbc.length) ≠ nb then acc
        else
          match parsePyInt (comps.getLastD ("")) with
          | none => acc
          | some idx =>
            if (m : Int) < idx then acc
            else if toString idx ∈ acc then idxLoop nb m rest acc cnt
            else idxLoop nb m rest (acc ++ [toString idx]) (cnt + 1)
    else acc

/-- Code-point lexicographic comparison of character lists, the order
    Python sorted uses on str values; written so the kernel can evaluate
    it (proved equivalent to the library order on String below). -/
def lexLeChars : List Char → List Char → Bool
  | [], _ => true
  | _ :: _, [] => false
  | c :: cs, d :: ds => if c < d then true else if d < c then false else lexLeChars cs ds

/-- Lexicographic string comparison by code points. -/
def strLeB (a b : String) : Bool := lexLeChars a.data b.data

theorem lexLeChars_iff :
    ∀ x y : List Char, lexLeChars x y = true ↔ ¬ List.Lex (fun a b => a < b) y x := by
  intro x
  induction x with
  | nil =>
      intro y
      constructor
      · intro _ h
        cases h
      · intro _
        rfl
  | cons c cs ih =>
      intro y
      cases y with
      | nil =>
          apply iff_of_false
          · simp [lexLeChars]
          · intro hn
            exact hn List.Lex.nil
      | cons d ds =>
          by_cases h1 : c < d
          · apply iff_of_true
            · simp [lexLeChars, h1]
            · intro h
              cases h with
              | cons h2 => exact absurd h1 (lt_irrefl _)
              | rel h2 => exact absurd h2 (asymm h1)
          · by_cases h2 : d < c
            · apply iff_of_false
              · simp [lexLeChars, h1, h2]
              · intro hn
                exact hn (List.Lex.rel h2)
            · have hcd : c = d := le_antisymm (le_of_not_lt h2) (le_of_not_lt h1)
              subst hcd
              have hred : lexLeChars (c :: cs) (c :: ds) = lexLeChars cs ds := by
                simp [lexLeChars]
              rw [hred, ih ds]
              constructor
              · intro hn h
                cases h with
                | cons h3 => exact hn h3
                | rel h3 => exact absurd h3 (lt_irrefl _)
              · intro hn h
                exact hn (List.Lex.cons h)

/-- The evaluable comparison agrees with the library order on String. -/
theorem strLeB_le (a b : String) : strLeB a b = true ↔ a ≤ b := by
  rw [String.le_iff_toList_le, ← not_lt]
  exact lexLeChars_iff a.data b.data

/-- SnmpClient.async_get_subtree_idx_list (snmp.py lines 369-423): run the
    walk from an empty accumulator and return sorted(valid_indices)
    (plain string sort, as Python sorted on str). -/
def getSubtreeIdxList (baseOid : String) (m : Nat) (resps : List NextResp) : List String :=
  List.insertionSort (fun a b => strLeB a b = true) (idxLoop (stripDots baseOid) m resps [] 0)

/-! ### config_flow.py: validate_mac_oid -/

/-- Decoded result of SnmpClient.async_getnext: the next OID in order and
    its value (async_getnext returns None on every failure, modelled by
    wrapping this in Option at the use site). -/
structure NextProbe where
  oid : String
  value : String
  deriving DecidableEq

/-- validate_mac_oid (config_flow.py lines 52-84) as a function of the
    single GETNEXT probe it issues: reject when the probe returned nothing,
    otherwise accept iff the declared OID with leading dots stripped is a
    string prefix of the returned next OID with leading dots stripped
    (first_oid.lstrip(.).startswith(oid.lstrip(.))). -/
def validateMacOid (declared : String) (probe : Option NextProbe) : Bool :=
  match probe with
  | none => false
  | some r => pyStartsWith (stripDots r.oid) (stripDots declared)

/-- Strict (proper) string-prefix relation, used to state the claim that
    the probe check demands a strict prefix. -/
def strictPref (a b : String) : Prop := a.data.isPrefixOf b.data = true ∧ a ≠ b

/-! ### config_flow.py: SnmpFlowHelper.handle_validate -/

/-- Outcome of one SnmpClient.async_get as seen by a caller protecting the
    call with try/except: ok carries the returned value (none models a
    Python None return, the transport-failure result), exn models a raised
    exception reaching the caller. -/
inductive GetRes where
  | ok (v : Option String) : GetRes
  | exn : GetRes
  deriving DecidableEq

/-- Read oracle: what async_get yields for each OID during this pass. -/
abbrev GetOracle := String → GetRes

/-- Probe oracle: what async_getnext yields for each OID. -/
abbrev ProbeOracle := String → Option NextProbe

/-- Truthiness of an optional string under Python rules: None and the
    empty string are falsy. -/
def truthyStr : Option String → Bool
  | none => false
  | some s => s ≠ ""

/-- A configured OID entry as consumed by handle_validate: oid defaults to
    the literal na sentinel, and only the fields the validation pass
    inspects are kept (type, calc, math; the vmap comparison-key check can
    never reject an entry, see the inner continue at config_flow.py
    lines 748-754, so vmap is not needed to decide inclusion). -/
structure CfgEntry where
  oid : String := "na"
  type : Option String := none
  calcKind : Option String := none
  math : Option String := none
  deriving DecidableEq

/-- Per-entry decision of the attributes/device pass of handle_validate
    (config_flow.py lines 712-762): skip the na sentinel, validate
    mac_table/mac_port entries through validate_mac_oid, otherwise read the
    OID and require a non-None value not starting with No Such; entries
    with calc diff, or with a truthy math formula, must additionally parse
    as a number. -/
def validateFlowEntry (g : GetOracle) (pr : ProbeOracle) (e : CfgEntry) : Bool :=
  if e.oid = "na" then false
  else if e.type = some ("mac_table") ∨ e.type = some ("mac_port") then
    validateMacOid e.oid (pr e.oid)
  else
    match g e.oid with
    | .exn => false
    | .ok none => false
    | .ok (some s) =>
      if pyStartsWith s ("No Such") then false
      else if e.calcKind = some ("diff") then (parsePyFloat s).isSome
      else if truthyStr e.math then (parsePyFloat s).isSome
      else true

/-- Per-entry decision of the ports pass of handle_validate
    (config_flow.py lines 767-802): as the device pass but with no
    mac_table special case and no math numeric check. -/
def validateFlowPortEntry (g : GetOracle) (e : CfgEntry) : Bool :=
  if e.oid = "na" then false
  else
    match g e.oid with
    | .exn => false
    | .ok none => false
    | .ok (some s) =>
      if pyStartsWith s ("No Such") then false
      else if e.calcKind = some ("diff") then (parsePyFloat s).isSome
      else true

/-- The configured OID structure handle_validate receives. -/
structure FlowCfg where
  attributes : AListT CfgEntry := []
  device : AListT CfgEntry := []
  ports : AListT (AListT CfgEntry) := []

/-- The validated OID structure handle_validate builds. -/
structure ValidatedSet where
  attributes : AListT CfgEntry
  device : AListT CfgEntry
  ports : AListT (AListT CfgEntry)
  deriving DecidableEq

/-- Both validation passes of handle_validate: filter every section by the
    per-entry decision, keeping every configured port key (each starts from
    an empty dict at config_flow.py line 768). -/
def validateSections (g : GetOracle) (pr : ProbeOracle) (cfg : FlowCfg) : ValidatedSet where
  attributes := cfg.attributes.filter (fun kv => validateFlowEntry g pr kv.2)
  device := cfg.device.filter (fun kv => validateFlowEntry g pr kv.2)
  ports := cfg.ports.map (fun pkv => (pkv.1, pkv.2.filter (fun kv => validateFlowPortEntry g kv.2)))

/-- Total validated count of the summary check (config_flow.py
    lines 807-811). -/
def totalValidated (v : ValidatedSet) : Nat :=
  v.attributes.length + v.device.length + (v.ports.map (fun p => p.2.length)).sum

/-- The summary policy of handle_validate (config_flow.py lines 818-833):
    zero validated OIDs is an overall failure (no_valid_oids, back to the
    settings step), otherwise the validated set is returned. -/
def handleValidate (g : GetOracle) (pr : ProbeOracle) (cfg : FlowCfg) : Except Unit ValidatedSet :=
  let v := validateSections g pr cfg
  if totalValidated v = 0 then .error () else .ok v

/-! ### coordinator.py: SnmpDataUpdateCoordinator state and configuration -/

/-- A cached sample value: Python None or a string (async_get returns
    str or None, and the coordinator stores those plus its markers). -/
abbrev Val := Option String

/-- The MAC-table block stored under the mac_table cache key
    (coordinator.py lines 398-405). -/
structure MacTable where
  lastUpdatedIso : String
  ports : AListT (List String)
  rawMac : AListT String
  rawPort : AListT String
  deriving DecidableEq

/-- The cache contents without the previous snapshot, i.e. the shape of
    prev_copy after popping the previous key (coordinator.py lines 238-239). -/
structure CacheCore where
  attributes : AListT Val := []
  device : AListT Val := []
  ports : AListT (AListT Val) := []
  lastUpdated : AListT Rat := []
  macTable : Option MacTable := none
  deriving DecidableEq

/-- The full coordinator cache self.data; previous none models the initial
    empty previous dict. -/
structure CacheData extends CacheCore where
  previous : Option CacheCore := none
  deriving DecidableEq

/-- Coordinator instance state relevant to a polling cycle. -/
structure CoordState where
  data : CacheData := {}
  firmwareCache : String := "Unknown"
  lastSlowUpdate : Rat := 0
  lastMacUpdate : Rat := 0
  aborted : Bool := false
  deriving DecidableEq

/-- A validated OID entry as the coordinator reads it (entry.get fields). -/
structure VOEntry where
  oid : Option String := none
  type : Option String := none
  deriving DecidableEq

/-- Session configuration the cycle consults: the validated OID map, the
    poll interval, the MAC sub-cycle multiplier and the optional MAC
    collection port allow-list. -/
structure Config where
  deviceOids : AListT VOEntry := []
  attributeOids : AListT VOEntry := []
  portOids : AListT (AListT VOEntry) := []
  pollingInterval : Rat := 30
  macUpdateCycle : Rat := 5
  macCollectionPorts : List String := []

/-- SLOW_UPDATE_CYCLE from const.py (the firmware slow-cycle multiplier). -/
def slowUpdateCycle : Rat := 60

/-- Protocol calls a cycle may issue. -/
inductive Call where
  | get (oid : String) : Call
  | subtree (oid : String) : Call
  deriving DecidableEq

/-- Subtree-walk oracle for async_get_subtree, which returns a non-raising
    result: a dict of OID to value, or None on failure/empty walk. -/
abbrev SubOracle := String → Option (AListT String)

/-- Truthiness of entry.get(oid): if not oid: continue skips None and the
    empty string; returns the usable OID otherwise. -/
def oidTruthy : Option String → Option String
  | none => none
  | some s => if s = "" then none else some s

/-- The No Such Object sentinel the device loop compares against
    (coordinator.py line 268). -/
def noSuchSentinel : String := "No Such Object currently exists at this OID"

/-- One iteration of the device-level polling loop (coordinator.py
    lines 260-277): skip the firmware key and entries without a truthy OID;
    otherwise read, storing the value when truthy and different from the
    sentinel, the missing marker otherwise, and the error marker when the
    read raised; the per-key timestamp is stamped in the finally block. -/
def pollDeviceEntry (g : GetOracle) (now : Rat) (key : String) (e : VOEntry)
    (dev : AListT Val) (lu : AListT Rat) (calls : List Call) :
    AListT Val × AListT Rat × List Call :=
  if key = "firmware" then (dev, lu, calls)
  else
    match oidTruthy e.oid with
    | none => (dev, lu, calls)
    | some oid =>
      let calls := calls ++ [.get oid]
      match g oid with
      | .exn => (aset dev key (some ("error")), aset lu ("device_" ++ key) now, calls)
      | .ok v =>
        let dev :=
          if truthyStr v ∧ v ≠ some noSuchSentinel then aset dev key v
          else aset dev key (some ("missing"))
        (dev, aset lu ("device_" ++ key) now, calls)

/-- The firmware slow sub-cycle (coordinator.py lines 282-318).  Returns
    (raised, firmwareCache, lastSlowUpdate, lastUpdated, calls): raised is
    true when the firmware read raised (that exception is not caught per
    entry and aborts the whole cycle).  The refresh timestamp
    _last_slow_update is recorded whenever the sub-cycle was due; on a
    falsy or sentinel value the firmware cache resets to Unknown. -/
def firmwareBlock (cfg : Config) (g : GetOracle) (now : Rat) (fw : String) (lastSlow : Rat)
    (lu : AListT Rat) (calls : List Call) :
    Bool × String × Rat × AListT Rat × List Call :=
  if slowUpdateCycle * cfg.pollingInterval ≤ now - lastSlow then
    match (aget cfg.attributeOids ("firmware")).orElse (fun _ => aget cfg.deviceOids ("firmware")) with
    | none => (false, fw, now, lu, calls)
    | some fe =>
      match oidTruthy fe.oid with
      | none => (false, fw, now, lu, calls)
      | some foid =>
        let calls := calls ++ [.get foid]
        match g foid with
        | .exn => (true, fw, lastSlow, lu, calls)
        | .ok v =>
          if truthyStr v ∧ v ≠ some noSuchSentinel then
            (false, v.getD fw, now, aset lu ("device_firmware") now, calls)
          else
            (false, "Unknown", now, lu, calls)
  else (false, fw, lastSlow, lu, calls)

/-- One iteration of the inner port polling loop (coordinator.py
    lines 326-341): entries without truthy OID are skipped entirely;
    otherwise the value is stored unless it is a string starting with
    No Such (in which case nothing is stored for the key), the error
    marker is stored when the read raised, and the per-(port, key)
    timestamp is stamped in the finally block in every case. -/
def pollPortEntry (g : GetOracle) (now : Rat) (pk key : String) (e : VOEntry)
    (pm : AListT Val) (lu : AListT Rat) (calls : List Call) :
    AListT Val × AListT Rat × List Call :=
  match oidTruthy e.oid with
  | none => (pm, lu, calls)
  | some oid =>
    let calls := calls ++ [.get oid]
    match g oid with
    | .exn => (aset pm key (some ("error")), aset lu ("port_" ++ pk ++ "_" ++ key) now, calls)
    | .ok v =>
      let pm :=
        match v with
        | some s => if pyStartsWith s ("No Such") then pm else aset pm key (some s)
        | none => aset pm key none
      (pm, aset lu ("port_" ++ pk ++ "_" ++ key) now, calls)

/-- The outer port polling loop body for one port (coordinator.py
    lines 324-342): a fresh per-port dict, the inner loop, and the per-port
    timestamp. -/
def pollPort (g : GetOracle) (now : Rat) (pk : String) (attrs : AListT VOEntry)
    (ports : AListT (AListT Val)) (lu : AListT Rat) (calls : List Call) :
    AListT (AListT Val) × AListT Rat × List Call :=
  let step := attrs.foldl
    (fun (acc : AListT Val × AListT Rat × List Call) kv =>
      pollPortEntry g now pk kv.1 kv.2 acc.1 acc.2.1 acc.2.2)
    ([], lu, calls)
  (aset ports pk step.1, aset step.2.1 ("port_" ++ pk) now, step.2.2)

/-- The search for the mac_table and mac_port entries in the validated
    device section (coordinator.py lines 352-356); a later entry of the
    same type overwrites an earlier one. -/
def findMacEntries (dev : AListT VOEntry) : Option VOEntry × Option VOEntry :=
  dev.foldl
    (fun (acc : Option VOEntry × Option VOEntry) kv =>
      if kv.2.type = some ("mac_table") then (some kv.2, acc.2)
      else if kv.2.type = some ("mac_port") then (acc.1, some kv.2)
      else acc)
    (none, none)

/-- Suffix map construction (coordinator.py lines 370-379): keep walk rows
    whose OID starts with the base plus a dot and key them by the remaining
    suffix. -/
def suffixMap (base : String) (walk : AListT String) : AListT String :=
  walk.foldl
    (fun acc kv =>
      if pyStartsWith kv.1 (base ++ ".") then aset acc (kv.1.drop (base.length + 1)) kv.2
      else acc)
    []

/-- Two-hex-digit lower-case rendering of one decoded octet
    (f-string 02x in coordinator.py line 386). -/
def fmt02x (i : Int) : String :=
  if i < 0 then ("-") ++ String.mk (Nat.toDigits 16 i.natAbs)
  else
    let s := String.mk (Nat.toDigits 16 i.toNat)
    if s.length < 2 then ("0") ++ s else s

/-- Decode a dotted octet suffix into a colon-joined MAC string
    (coordinator.py lines 384-389); none models the ValueError skip. -/
def macFromSuffix (suffix : String) : Option String :=
  ((splitDots suffix).mapM (fun o => (parsePyInt o).map fmt02x)).map
    (fun hs => String.intercalate (":") hs)

/-- The MAC grouping loop (coordinator.py lines 381-396): decode each
    address suffix, look up its port, apply the optional collection-port
    allow-list, and append to the per-port list. -/
def groupMacs (msm psm : AListT String) (enabled : List String) : AListT (List String) :=
  msm.foldl
    (fun acc kv =>
      match macFromSuffix kv.1 with
      | none => acc
      | some mac =>
        match aget psm kv.1 with
        | none => acc
        | some p =>
          if p = "" then acc
          else if enabled ≠ [] ∧ p ∉ enabled then acc
          else aset acc p ((aget acc p).getD [] ++ [mac]))
    []

/-- Assembled mac_table cache block (coordinator.py lines 398-405). -/
def buildMacTable (mtOid mpOid : String) (macs prts : AListT String)
    (enabled : List String) (nowIso : String) : MacTable where
  lastUpdatedIso := nowIso
  ports := groupMacs (suffixMap (stripDots mtOid) macs) (suffixMap (stripDots mpOid) prts) enabled
  rawMac := macs
  rawPort := prts

/-- The MAC-table slow sub-cycle (coordinator.py lines 347-408).  Returns
    (macTable to store if built, lastUpdated, new _last_mac_update, calls).
    The refresh timestamp is assigned inside the branch requiring both the
    mac_table and the mac_port entry to be present; when either is missing
    it stays unchanged. -/
def macBlock (cfg : Config) (sub : SubOracle) (now : Rat) (nowIso : String) (lastMac : Rat)
    (lu : AListT Rat) (calls : List Call) :
    Option MacTable × AListT Rat × Rat × List Call :=
  if cfg.macUpdateCycle * cfg.pollingInterval ≤ now - lastMac then
    match findMacEntries cfg.deviceOids with
    | (some te, some pe) =>
      let res : Option MacTable × AListT Rat × List Call :=
        match oidTruthy te.oid, oidTruthy pe.oid with
        | some mtOid, some mpOid =>
          let calls := calls ++ [Call.subtree mtOid, Call.subtree mpOid]
          match sub mtOid, sub mpOid with
          | some macs, some prts =>
            if macs ≠ [] ∧ prts ≠ [] then
              (some (buildMacTable mtOid mpOid macs prts cfg.macCollectionPorts nowIso),
               aset lu ("mac_table") now, calls)
            else (none, lu, calls)
          | _, _ => (none, lu, calls)
        | _, _ => (none, lu, calls)
      (res.1, res.2.1, now, res.2.2)
    | _ => (none, lu, lastMac, calls)
  else (none, lu, lastMac, calls)

/-- The device-level polling loop (coordinator.py lines 260-277) over the
    fresh new_data accumulators. -/
def deviceLoop (cfg : Config) (g : GetOracle) (now : Rat) :
    AListT Val × AListT Rat × List Call :=
  cfg.deviceOids.foldl
    (fun (acc : AListT Val × AListT Rat × List Call) kv =>
      pollDeviceEntry g now kv.1 kv.2 acc.1 acc.2.1 acc.2.2)
    ([], [], [])

/-- The port-level polling loop (coordinator.py lines 324-342). -/
def portsLoop (cfg : Config) (g : GetOracle) (now : Rat)
    (lu : AListT Rat) (calls : List Call) :
    AListT (AListT Val) × AListT Rat × List Call :=
  cfg.portOids.foldl
    (fun (acc : AListT (AListT Val) × AListT Rat × List Call) pkv =>
      pollPort g now pkv.1 pkv.2 acc.1 acc.2.1 acc.2.2)
    ([], lu, calls)

/-- Remainder of a cycle after a non-raising firmware sub-cycle: firmware
    value into the device dict (coordinator.py line 319), the port loop,
    the MAC sub-cycle, and the final merge into self.data (line 420), which
    replaces the attributes, device, ports, last_updated and previous keys
    and replaces mac_table only when the sub-cycle rebuilt it. -/
def cycleTail (cfg : Config) (g : GetOracle) (sub : SubOracle)
    (now : Rat) (nowIso : String) (s : CoordState) (prevCore : CacheCore)
    (dev0 : AListT Val) (fw : String) (lastSlow : Rat)
    (lu1 : AListT Rat) (calls1 : List Call) :
    CoordState × List Call × Bool :=
  let dev := aset dev0 ("firmware") (some fw)
  let pstep := portsLoop cfg g now lu1 calls1
  let mstep := macBlock cfg sub now nowIso s.lastMacUpdate pstep.2.1 pstep.2.2
  let data1 : CacheData :=
    { attributes := []
      device := dev
      ports := pstep.1
      lastUpdated := mstep.2.1
      macTable := match mstep.1 with | some t => some t | none => s.data.macTable
      previous := some prevCore }
  ({ s with
      data := data1
      firmwareCache := fw
      lastSlowUpdate := lastSlow
      lastMacUpdate := mstep.2.2.1 },
   mstep.2.2.2, false)

/-- SnmpDataUpdateCoordinator._async_update_data (coordinator.py
    lines 225-421): the whole polling cycle as a function of the session
    configuration, the read and walk oracles, the cycle clock reads (now
    for utcnow().timestamp() at line 231, nowIso for the isoformat read at
    line 399) and the coordinator state.  Returns the new state, the
    protocol calls issued in order, and whether the cycle raised (in which
    case the merge at line 420 never ran and the state is unchanged). -/
def asyncUpdateData (cfg : Config) (g : GetOracle) (sub : SubOracle)
    (now : Rat) (nowIso : String) (s : CoordState) :
    CoordState × List Call × Bool :=
  if s.aborted then (s, [], false)
  else
    let prevCore := s.data.toCacheCore
    let dstep := deviceLoop cfg g now
    match firmwareBlock cfg g now s.firmwareCache s.lastSlowUpdate dstep.2.1 dstep.2.2 with
    | (true, _, _, _, calls) => (s, calls, true)
    | (false, fw, lastSlow, lu1, calls1) =>
      cycleTail cfg g sub now nowIso s prevCore dstep.1 fw lastSlow lu1 calls1

/-! ### sensor.py: apply_calc -/

/-- A dynamically typed Python value as apply_calc handles it. -/
inductive PyVal where
  | pstr (s : String) : PyVal
  | pnum (q : Rat) : PyVal
  | pnone : PyVal
  deriving DecidableEq

/-- Python float(v): numbers pass through, strings parse, None raises
    (modelled as none). -/
def pyFloat : PyVal → Option Rat
  | .pstr s => parsePyFloat s
  | .pnum q => some q
  | .pnone => none

/-- The descriptor fields apply_calc reads: entry.get(calc), entry.get(math)
    and entry.get(key) (the key injected by the sensor setup). -/
structure CalcEntry where
  calcKind : Option String := none
  math : Option String := none
  key : Option String := none
  deriving DecidableEq

/-- Python str() of the optional key, as interpolated into the
    last_updated lookup key. -/
def keyStr : Option String → String
  | some k => k
  | none => "None"

/-- The previous-sample lookup of the diff branch (sensor.py lines 67-82):
    the raw previous value from the previous snapshot (nested Option: the
    outer layer is dict-get absence, the inner one a stored None). -/
def prevRawOf (cd : CacheData) (entry : CalcEntry) (isPort : Bool) (pk : String) :
    Option Val :=
  match cd.previous with
  | none => none
  | some pc =>
    match entry.key with
    | none => none
    | some k => if isPort then aget ((aget pc.ports pk).getD []) k else aget pc.device k

/-- The previous-timestamp lookup of the diff branch (sensor.py
    lines 73-75 and 80-82), defaulting to 0. -/
def prevTsOf (cd : CacheData) (entry : CalcEntry) (isPort : Bool) (pk : String) : Rat :=
  match cd.previous with
  | none => 0
  | some pc =>
    let lk := if isPort then ("port_") ++ pk ++ ("_") ++ keyStr entry.key
              else ("device_") ++ keyStr entry.key
    (aget pc.lastUpdated lk).getD 0

/-- apply_calc (sensor.py lines 51-124).  evalF abstracts eval_formula
    (sensor.py lines 20-46), a pure function of the formula string and the
    intermediate result; clockNow models the hidden clock read
    dt_util.utcnow().timestamp() at sensor.py line 84 — apply_calc takes no
    explicit now parameter in the source.  The diff branch returns None
    (without applying the formula) when there is no previous snapshot, no
    usable previous value, non-positive elapsed time, a non-numeric value
    on either side, or a current value below the previous one; otherwise it
    rounds the per-second rate to two decimals.  The formula is applied to
    a non-None result when entry.get(math) is truthy. -/
def applyCalc (evalF : String → PyVal → PyVal) (rawValue : PyVal) (entry : CalcEntry)
    (cd : CacheData) (isPort : Bool) (pk : String) (clockNow : Rat) : PyVal :=
  let calcType := entry.calcKind.getD ("direct")
  let step : Option PyVal :=
    if calcType = "direct" then some rawValue
    else if calcType = "diff" then
      let elapsed := clockNow - prevTsOf cd entry isPort pk
      if cd.previous.isNone ∨ (prevRawOf cd entry isPort pk).join.isNone ∨ elapsed ≤ 0 then
        none
      else
        match pyFloat rawValue, ((prevRawOf cd entry isPort pk).join).bind parsePyFloat with
        | some c, some p =>
          if c < p then none
          else some (.pnum (rnd2 ((c - p) / elapsed)))
        | _, _ => none
    else some rawValue
  match step with
  | none => .pnone
  | some r =>
    match entry.math with
    | some f => if f ≠ "" ∧ r ≠ .pnone then evalF f r else r
    | none => r

/-! ### coordinator.py: write-path and poll-cycle atomicity model

The write paths async_set_switch_state (coordinator.py lines 85-156) and
async_set_text_value (lines 161-220) and the poll cycle share the cache
self.data.  Under asyncio, control can only change hands at await points,
so each path is a list of atomic actions separated by its awaits:

poll cycle (one device-level key k, coordinator.py lines 254-420):
  lockAcquire (line 254), devRead (the await async_get at line 267, storing
  the reply locally in new_data), lockRelease (end of the async-with block)
  and cacheMerge (the synchronous self.data.update(new_data) at line 420).

write path (same key k, lines 125-152): devWrite v (the await async_set,
which sets the device variable and verifies it), then cacheSet v (the
synchronous cache update at lines 136-152).  The write path takes no lock:
its action list contains no lockAcquire. -/

/-- Atomic actions of the two paths. -/
inductive Act where
  | lockAcquire : Act
  | lockRelease : Act
  | devRead : Act
  | devWrite (v : String) : Act
  | cacheMerge : Act
  | cacheSet (v : String) : Act
  deriving DecidableEq

/-- Shared state: the device variable behind the polled/written OID, the
    cache entry for key k, the coordinator lock, and the value the poll
    coroutine has read into its local new_data. -/
structure ShState where
  dev : String
  cache : Option String
  lockHeld : Bool
  pollLocal : Option String
  deriving DecidableEq

/-- Effect of one atomic action. -/
def applyAct : Act → ShState → ShState
  | .lockAcquire, s => { s with lockHeld := true }
  | .lockRelease, s => { s with lockHeld := false }
  | .devRead, s => { s with pollLocal := some s.dev }
  | .devWrite v, s => { s with dev := v }
  | .cacheMerge, s => { s with cache := s.pollLocal }
  | .cacheSet v, s => { s with cache := some v }

/-- The poll cycle action list (translated from coordinator.py
    lines 254-420, restricted to one device key). -/
def pollProg : List Act := [.lockAcquire, .devRead, .lockRelease, .cacheMerge]

/-- The write path action list (translated from coordinator.py
    lines 125-152): no lock is acquired. -/
def writeProg (v : String) : List Act := [.devWrite v, .cacheSet v]

/-- Cooperative interleaving under a schedule: true picks the next poll
    action, false the next write action; a coroutine whose next action is
    lockAcquire while the lock is held stalls without progressing. -/
def runProgs : List Bool → List Act → List Act → ShState → ShState
  | [], _, _, s => s
  | true :: sched, p :: ps, ws, s =>
    if p = Act.lockAcquire ∧ s.lockHeld then runProgs sched (p :: ps) ws s
    else runProgs sched ps ws (applyAct p s)
  | true :: sched, [], ws, s => runProgs sched [] ws s
  | false :: sched, ps, w :: ws, s =>
    if w = Act.lockAcquire ∧ s.lockHeld then runProgs sched ps (w :: ws) s
    else runProgs sched ps ws (applyAct w s)
  | false :: sched, ps, [], s => runProgs sched ps [] s

/-- Run an action list to completion without interleaving. -/
def runAll (acts : List Act) (s : ShState) : ShState :=
  acts.foldl (fun st a => applyAct a st) s

/-! ### Concrete fixtures used by witnesses and counterexamples -/

/-- Read oracle answering every GET with the string 1. -/
def gOkOne : GetOracle := fun _ => GetRes.ok (some ("1"))

/-- Read oracle answering every GET with None (the transport-failure
    return of async_get). -/
def gNone : GetOracle := fun _ => GetRes.ok none

/-- Read oracle answering every GET with the No Such Object sentinel. -/
def gNoSuch : GetOracle := fun _ => GetRes.ok (some noSuchSentinel)

/-- Probe oracle returning no result. -/
def prEmpty : ProbeOracle := fun _ => none

/-- Subtree oracle returning no result. -/
def subEmpty : SubOracle := fun _ => none

/-- A flow configuration with a single device entry at a live OID. -/
def cfgC9 : FlowCfg := { device := [("uptime", { oid := ".1.3.6.1" })] }

/-- A coordinator state whose session has been aborted. -/
def sAborted : CoordState := { aborted := true }

/-! ### C2: aborted cycles -/

/-- C2: every polling cycle entered after the abort flag is set issues no
    protocol call and leaves the coordinator state, in particular the
    cache, exactly as it was. -/
theorem c2_abort_stops_cycle (cfg : Config) (g : GetOracle) (sub : SubOracle)
    (now : Rat) (nowIso : String) (s : CoordState) (h : s.aborted = true) :
    asyncUpdateData cfg g sub now nowIso s = (s, [], false) := by
  unfold asyncUpdateData
  simp [h]

/-- C2 witness: a concrete aborted session neither calls the device nor
    changes the cache. -/
theorem c2_abort_witness :
    asyncUpdateData {} gOkOne subEmpty 100 ("t") sAborted = (sAborted, [], false) :=
  c2_abort_stops_cycle {} gOkOne subEmpty 100 ("t") sAborted rfl

/-! ### C6: address-table validation probe -/

/-- C6 counterexample: validate_mac_oid accepts a probe whose next OID
    equals the declared OID, although the declared identifier is then not a
    strict prefix of the returned one; the acceptance test is a plain
    (non-strict) string-prefix check. -/
theorem c6_counterexample :
    validateMacOid ("1.2.3") (some { oid := "1.2.3", value := "0" }) = true ∧
    ¬ strictPref (stripDots ("1.2.3")) (stripDots ("1.2.3")) := by
  constructor
  · rfl
  · intro h
    exact h.2 rfl

/-- C6 (amended): for a descriptor validated through the single GETNEXT
    probe, validate_mac_oid accepts iff the probe returned a result whose
    next OID, after stripping leading dots, has the declared identifier
    (also stripped) as a string prefix — not necessarily a strict one. -/
theorem c6_probe_accepts_iff (declared : String) (probe : Option NextProbe) :
    validateMacOid declared probe = true ↔
      ∃ r, probe = some r ∧
        pyStartsWith (stripDots r.oid) (stripDots declared) = true := by
  cases probe with
  | none => simp [validateMacOid]
  | some r => simp [validateMacOid]

/-- C6 amended witness: a probe answering with a strictly deeper OID is
    accepted. -/
theorem c6_probe_accepts_iff_witness :
    validateMacOid ("1.2.3") (some { oid := "1.2.3.5", value := "0" }) = true :=
  (c6_probe_accepts_iff ("1.2.3") (some { oid := "1.2.3.5", value := "0" })).mpr
    ⟨{ oid := "1.2.3.5", value := "0" }, rfl, rfl⟩

/-! ### C8: async_set success condition -/

/-- C8: async_set reports success iff the attempt at which it stops
    retrying (the first whose SET acknowledgment carries no error) exists
    and its follow-up verification read returned exactly the written
    value; every other transcript yields failure. -/
theorem c8_set_success_iff (written : String) (attempts : List SetAttempt) :
    asyncSetModel written attempts = true ↔
      ∃ a, firstCleanAck attempts = some a ∧ a.verified = some written := by
  induction attempts with
  | nil => simp [asyncSetModel, firstCleanAck]
  | cons a rest ih =>
    by_cases h : a.ackError
    · simp [asyncSetModel, firstCleanAck, h, ih]
    · simp [asyncSetModel, firstCleanAck, h]

/-- C8 witness: a clean acknowledgment whose verification read echoes the
    written value succeeds. -/
theorem c8_set_success_iff_witness :
    asyncSetModel ("1") [{ ackError := false, verified := some ("1") }] = true :=
  (c8_set_success_iff ("1") [{ ackError := false, verified := some ("1") }]).mpr
    ⟨{ ackError := false, verified := some ("1") }, rfl, rfl⟩

/-! ### C9: validation zero-result policy -/

/-- C9: handle_validate fails as a whole iff the total validated count
    across attributes, device and all ports is zero, and a successful
    return never carries an all-empty validated set. -/
theorem c9_zero_total_policy (g : GetOracle) (pr : ProbeOracle) (cfg : FlowCfg) :
    (handleValidate g pr cfg = .error () ↔
       totalValidated (validateSections g pr cfg) = 0) ∧
    (∀ v, handleValidate g pr cfg = .ok v → totalValidated v ≠ 0) := by
  unfold handleValidate
  by_cases h : totalValidated (validateSections g pr cfg) = 0
  · simp [h]
  · simp only [h, if_neg, if_false]
    refine ⟨by simp [h], ?_⟩
    intro v hv
    obtain rfl : validateSections g pr cfg = v := by
      simpa using hv
    exact h

/-- C9 witness: a configuration with one live numeric device OID validates
    to a nonempty set and the summary does not fail. -/
theorem c9_zero_total_witness :
    totalValidated (validateSections gOkOne prEmpty cfgC9) ≠ 0 :=
  (c9_zero_total_policy gOkOne prEmpty cfgC9).2 (validateSections gOkOne prEmpty cfgC9) rfl

/-! ### C3: address-table refresh timestamp -/

/-- Session configuration without any mac_table or mac_port descriptor. -/
def cfgNoMac : Config := { pollingInterval := 1, macUpdateCycle := 1 }

/-- Whether both address-table descriptors were found among the validated
    device variables. -/
def bothMacPresent (cfg : Config) : Bool :=
  (findMacEntries cfg.deviceOids).1.isSome && (findMacEntries cfg.deviceOids).2.isSome

theorem macBlock_lastMac (cfg : Config) (sub : SubOracle) (now : Rat) (nowIso : String)
    (lastMac : Rat) (lu : AListT Rat) (calls : List Call)
    (hdue : cfg.macUpdateCycle * cfg.pollingInterval ≤ now - lastMac) :
    (macBlock cfg sub now nowIso lastMac lu calls).2.2.1 =
      if bothMacPresent cfg then now else lastMac := by
  unfold macBlock bothMacPresent
  rw [if_pos hdue]
  rcases h : findMacEntries cfg.deviceOids with ⟨te, pe⟩
  cases te <;> cases pe <;> simp

theorem firmwareBlock_no_entry (cfg : Config) (g : GetOracle) (now : Rat) (fw : String)
    (ls : Rat) (lu : AListT Rat) (cs : List Call)
    (h1 : aget cfg.attributeOids ("firmware") = none)
    (h2 : aget cfg.deviceOids ("firmware") = none) :
    (firmwareBlock cfg g now fw ls lu cs).1 = false := by
  unfold firmwareBlock
  split
  · simp [h1, h2, Option.orElse]
  · rfl

theorem cycleTail_raised_false (cfg : Config) (g : GetOracle) (sub : SubOracle)
    (now : Rat) (nowIso : String) (s : CoordState) (prevCore : CacheCore)
    (dev0 : AListT Val) (fw : String) (ls : Rat) (lu1 : AListT Rat) (cs1 : List Call) :
    (cycleTail cfg g sub now nowIso s prevCore dev0 fw ls lu1 cs1).2.2 = false := rfl

theorem cycleTail_lastMac (cfg : Config) (g : GetOracle) (sub : SubOracle)
    (now : Rat) (nowIso : String) (s : CoordState) (prevCore : CacheCore)
    (dev0 : AListT Val) (fw : String) (ls : Rat) (lu1 : AListT Rat) (cs1 : List Call) :
    (cycleTail cfg g sub now nowIso s prevCore dev0 fw ls lu1 cs1).1.lastMacUpdate =
      (macBlock cfg sub now nowIso s.lastMacUpdate
        (portsLoop cfg g now lu1 cs1).2.1 (portsLoop cfg g now lu1 cs1).2.2).2.2.1 := rfl

/-- A non-aborted cycle whose firmware sub-cycle did not raise reduces to
    the cycle tail applied to the firmware outputs. -/
theorem asyncUpdateData_eq_tail (cfg : Config) (g : GetOracle) (sub : SubOracle)
    (now : Rat) (nowIso : String) (s : CoordState)
    (hab : s.aborted = false)
    (hfb : (firmwareBlock cfg g now s.firmwareCache s.lastSlowUpdate
        (deviceLoop cfg g now).2.1 (deviceLoop cfg g now).2.2).1 = false) :
    asyncUpdateData cfg g sub now nowIso s =
      cycleTail cfg g sub now nowIso s s.data.toCacheCore (deviceLoop cfg g now).1
        (firmwareBlock cfg g now s.firmwareCache s.lastSlowUpdate
          (deviceLoop cfg g now).2.1 (deviceLoop cfg g now).2.2).2.1
        (firmwareBlock cfg g now s.firmwareCache s.lastSlowUpdate
          (deviceLoop cfg g now).2.1 (deviceLoop cfg g now).2.2).2.2.1
        (firmwareBlock cfg g now s.firmwareCache s.lastSlowUpdate
          (deviceLoop cfg g now).2.1 (deviceLoop cfg g now).2.2).2.2.2.1
        (firmwareBlock cfg g now s.firmwareCache s.lastSlowUpdate
          (deviceLoop cfg g now).2.1 (deviceLoop cfg g now).2.2).2.2.2.2 := by
  unfold asyncUpdateData
  simp only [hab, Bool.false_eq_true, if_false]
  rcases hf : firmwareBlock cfg g now s.firmwareCache s.lastSlowUpdate
      (deviceLoop cfg g now).2.1 (deviceLoop cfg g now).2.2 with ⟨raised, fw, ls, lu1, cs1⟩
  rw [hf] at hfb
  cases raised with
  | true => simp at hfb
  | false => rfl

/-- C3 counterexample: a cycle whose MAC sub-cycle is due (elapsed 100 with
    interval 1) but whose validated device section has neither
    address-table descriptor leaves the refresh timestamp at 0 instead of
    updating it to the cycle time 100. -/
theorem c3_counterexample :
    cfgNoMac.macUpdateCycle * cfgNoMac.pollingInterval ≤
        (100 : Rat) - (CoordState.lastMacUpdate {}) ∧
    (asyncUpdateData cfgNoMac gOkOne subEmpty 100 ("t") {}).1.lastMacUpdate = 0 ∧
    (0 : Rat) ≠ 100 := by
  have hfb : (firmwareBlock cfgNoMac gOkOne 100 (CoordState.firmwareCache {})
      (CoordState.lastSlowUpdate {}) (deviceLoop cfgNoMac gOkOne 100).2.1
      (deviceLoop cfgNoMac gOkOne 100).2.2).1 = false :=
    firmwareBlock_no_entry cfgNoMac gOkOne 100 _ _ _ _ rfl rfl
  have heq := asyncUpdateData_eq_tail cfgNoMac gOkOne subEmpty 100 ("t") {} rfl hfb
  refine ⟨by norm_num [cfgNoMac], ?_, by norm_num⟩
  rw [heq, cycleTail_lastMac, macBlock_lastMac _ _ _ _ _ _ _ (by norm_num [cfgNoMac])]
  have hb : bothMacPresent cfgNoMac = false := rfl
  rw [hb]
  rfl

/-- C3 (amended): in every completed (non-aborted, non-raising) cycle whose
    MAC sub-cycle is due, the refresh timestamp is set to the cycle time
    exactly when both address-table descriptors are present among the
    validated device variables, and is left unchanged otherwise. -/
theorem c3_mac_timestamp (cfg : Config) (g : GetOracle) (sub : SubOracle)
    (now : Rat) (nowIso : String) (s : CoordState)
    (hab : s.aborted = false)
    (hnr : (asyncUpdateData cfg g sub now nowIso s).2.2 = false)
    (hdue : cfg.macUpdateCycle * cfg.pollingInterval ≤ now - s.lastMacUpdate) :
    (asyncUpdateData cfg g sub now nowIso s).1.lastMacUpdate =
      if bothMacPresent cfg then now else s.lastMacUpdate := by
  have hfb : (firmwareBlock cfg g now s.firmwareCache s.lastSlowUpdate
      (deviceLoop cfg g now).2.1 (deviceLoop cfg g now).2.2).1 = false := by
    by_contra hcon
    rw [Bool.not_eq_false] at hcon
    unfold asyncUpdateData at hnr
    simp only [hab, Bool.false_eq_true, if_false] at hnr
    rcases hf : firmwareBlock cfg g now s.firmwareCache s.lastSlowUpdate
        (deviceLoop cfg g now).2.1 (deviceLoop cfg g now).2.2 with ⟨raised, fw, ls, lu1, cs1⟩
    rw [hf] at hcon
    rw [hf] at hnr
    obtain rfl : raised = true := hcon
    simp at hnr
  rw [asyncUpdateData_eq_tail cfg g sub now nowIso s hab hfb, cycleTail_lastMac]
  exact macBlock_lastMac cfg sub now nowIso s.lastMacUpdate _ _ hdue

/-- Session configuration with both address-table descriptors declared
    (identifiers left unbound, which does not affect the timestamp). -/
def cfgBothMac : Config :=
  { pollingInterval := 1
    macUpdateCycle := 1
    deviceOids := [("mt", { type := some ("mac_table") }), ("mp", { type := some ("mac_port") })] }

/-- C3 amended witness: concrete due cycle with both descriptors present
    updates the timestamp to the cycle time. -/
theorem c3_mac_timestamp_witness :
    (asyncUpdateData cfgBothMac gOkOne subEmpty 100 ("t") {}).1.lastMacUpdate = 100 := by
  have hfb : (firmwareBlock cfgBothMac gOkOne 100 (CoordState.firmwareCache {})
      (CoordState.lastSlowUpdate {}) (deviceLoop cfgBothMac gOkOne 100).2.1
      (deviceLoop cfgBothMac gOkOne 100).2.2).1 = false :=
    firmwareBlock_no_entry cfgBothMac gOkOne 100 _ _ _ _ rfl rfl
  have heq := asyncUpdateData_eq_tail cfgBothMac gOkOne subEmpty 100 ("t") {} rfl hfb
  have hnr : (asyncUpdateData cfgBothMac gOkOne subEmpty 100 ("t") {}).2.2 = false := by
    rw [heq]
    exact cycleTail_raised_false _ _ _ _ _ _ _ _ _ _ _ _
  have h := c3_mac_timestamp cfgBothMac gOkOne subEmpty 100 ("t") {} rfl hnr
    (by norm_num [cfgBothMac])
  rw [h]
  have hb : bothMacPresent cfgBothMac = true := rfl
  rw [hb]
  rfl

/-! ### C4: port-level read outcome handling -/

/-- A port descriptor with a bound OID. -/
def ePort : VOEntry := { oid := some (".1.2") }

/-- C4 counterexample: a port-scoped read returning the not-found sentinel
    stores nothing for that (port, key) — no missing marker — and a
    transport failure (async_get returning None) stores None rather than an
    error marker.  Both contradict the claim that port-level outcome
    handling matches device-level handling. -/
theorem c4_counterexample :
    aget (pollPortEntry gNoSuch 5 ("p01") ("status") ePort [] [] []).1 ("status") = none ∧
    aget (pollPortEntry gNone 5 ("p01") ("status") ePort [] [] []).1 ("status") = some none ∧
    aget (pollDeviceEntry gNoSuch 5 ("status") ePort [] [] []).1 ("status") =
      some (some ("missing")) := by
  exact ⟨rfl, rfl, rfl⟩

/-- C4 (amended): for every validated port-scoped descriptor with a truthy
    OID, the poll loop body stores the value on a non-sentinel reply,
    stores nothing for the key when the reply is a string starting with
    No Such (device-level polling stores a missing marker instead), stores
    None when the read returns None, stores an error marker when the read
    raises, and stamps the per-(port, key) timestamp with the cycle time in
    every one of these cases. -/
theorem c4_port_outcomes (g : GetOracle) (now : Rat) (pk key : String) (e : VOEntry)
    (pm : AListT Val) (lu : AListT Rat) (cs : List Call) (oid : String)
    (hoid : oidTruthy e.oid = some oid) :
    (∀ sv, g oid = .ok (some sv) → pyStartsWith sv ("No Such") = false →
        aget (pollPortEntry g now pk key e pm lu cs).1 key = some (some sv)) ∧
    (∀ sv, g oid = .ok (some sv) → pyStartsWith sv ("No Such") = true →
        (pollPortEntry g now pk key e pm lu cs).1 = pm) ∧
    (g oid = .ok none → aget (pollPortEntry g now pk key e pm lu cs).1 key = some none) ∧
    (g oid = .exn → aget (pollPortEntry g now pk key e pm lu cs).1 key = some (some ("error"))) ∧
    aget (pollPortEntry g now pk key e pm lu cs).2.1 ("port_" ++ pk ++ "_" ++ key) = some now := by
  refine ⟨?_, ?_, ?_, ?_, ?_⟩
  · intro sv hg hns
    simp [pollPortEntry, hoid, hg, hns, aget_aset_self]
  · intro sv hg hns
    simp [pollPortEntry, hoid, hg, hns]
  · intro hg
    simp [pollPortEntry, hoid, hg, aget_aset_self]
  · intro hg
    simp [pollPortEntry, hoid, hg, aget_aset_self]
  · cases hg : g oid with
    | ok v =>
        cases v with
        | none => simp [pollPortEntry, hoid, hg, aget_aset_self]
        | some sv =>
            by_cases hns : pyStartsWith sv ("No Such") = true <;>
              simp [pollPortEntry, hoid, hg, hns, aget_aset_self]
    | exn => simp [pollPortEntry, hoid, hg, aget_aset_self]

/-- C4 amended witness: a successful non-sentinel port read stores the
    value and stamps the per-(port, key) timestamp. -/
theorem c4_port_outcomes_witness :
    aget (pollPortEntry gOkOne 7 ("p01") ("k") ePort [] [] []).1 ("k") = some (some ("1")) ∧
    aget (pollPortEntry gOkOne 7 ("p01") ("k") ePort [] [] []).2.1 ("port_p01_k") = some 7 := by
  have h := c4_port_outcomes gOkOne 7 ("p01") ("k") ePort [] [] [] (".1.2") rfl
  exact ⟨h.1 ("1") rfl rfl, h.2.2.2.2⟩

/-! ### C1: write path versus poll cycle atomicity -/

/-- Initial shared state: device variable holds d, cache entry empty, lock
    free, poll coroutine not yet started. -/
def sInit (d : String) : ShState :=
  { dev := d, cache := none, lockHeld := false, pollLocal := none }

/-- The schedule interleaving the write between the poll read and the poll
    merge: poll acquires and reads, the write runs to completion during the
    poll awaits, then the poll releases and merges. -/
def schedInterleaved : List Bool := [true, true, false, false, true, true]

/-- C1 counterexample: the write path contains no lock acquisition, and
    interleaving a write of 2 into an in-flight poll over initial device
    value 1 leaves the cache at the stale poll value 1, which differs from
    the cache produced by either serialization (both end at 2).  The claim
    that writes take the poll lock and that the observed cache is always
    one of the two serializations is therefore false. -/
theorem c1_counterexample :
    Act.lockAcquire ∉ writeProg ("2") ∧
    (runProgs schedInterleaved pollProg (writeProg ("2")) (sInit ("1"))).cache = some ("1") ∧
    (runAll (pollProg ++ writeProg ("2")) (sInit ("1"))).cache = some ("2") ∧
    (runAll (writeProg ("2") ++ pollProg) (sInit ("1"))).cache = some ("2") := by
  refine ⟨by decide, rfl, rfl, rfl⟩

/-- C1 (amended): neither write path acquires the coordinator lock before
    mutating the cache, and for every device value d and written value v
    with v distinct from d there is an interleaving of one write with one
    in-flight poll cycle whose final cache differs from the final cache of
    both serializations (poll-then-write and write-then-poll). -/
theorem c1_write_unlocked (d v : String) (hne : v ≠ d) :
    Act.lockAcquire ∉ writeProg v ∧
    (runProgs schedInterleaved pollProg (writeProg v) (sInit d)).cache ≠
      (runAll (pollProg ++ writeProg v) (sInit d)).cache ∧
    (runProgs schedInterleaved pollProg (writeProg v) (sInit d)).cache ≠
      (runAll (writeProg v ++ pollProg) (sInit d)).cache := by
  have hrun : (runProgs schedInterleaved pollProg (writeProg v) (sInit d)).cache = some d := rfl
  have hs1 : (runAll (pollProg ++ writeProg v) (sInit d)).cache = some v := rfl
  have hs2 : (runAll (writeProg v ++ pollProg) (sInit d)).cache = some v := rfl
  refine ⟨?_, ?_, ?_⟩
  · simp [writeProg]
  · rw [hrun, hs1]
    intro h
    exact hne (Option.some.inj h).symm
  · rw [hrun, hs2]
    intro h
    exact hne (Option.some.inj h).symm

/-- C1 amended witness: the concrete interleaving at device value 1 and
    written value 2. -/
theorem c1_write_unlocked_witness :
    Act.lockAcquire ∉ writeProg ("2") ∧
    (runProgs schedInterleaved pollProg (writeProg ("2")) (sInit ("1"))).cache ≠
      (runAll (pollProg ++ writeProg ("2")) (sInit ("1"))).cache :=
  ⟨(c1_write_unlocked ("1") ("2") (by decide)).1,
   (c1_write_unlocked ("1") ("2") (by decide)).2.1⟩

/-! ### C5 and C7: the value transformation pipeline -/

/-- The identity formula evaluator stand-in (no formula is applied in the
    cases below). -/
def evalIdF : String → PyVal → PyVal := fun _ v => v

/-- A rate descriptor bound to cache key k, without a formula. -/
def entryDiff : CalcEntry := { calcKind := some ("diff"), key := some ("k") }

/-- A previous snapshot carrying sample 100 for key k at timestamp 0. -/
def prevCoreK : CacheCore :=
  { device := [("k", some ("100"))], lastUpdated := [("device_k", 0)] }

/-- Cache whose previous snapshot is prevCoreK. -/
def cdPrev : CacheData := { previous := some prevCoreK }

/-- Evaluation lemma for the diff branch of apply_calc: with a rate
    descriptor, no formula, a truthy previous snapshot, numeric current and
    previous values and positive elapsed time, the result is None for a
    decreasing counter and the rounded rate otherwise. -/
theorem applyCalc_diff (evalF : String → PyVal → PyVal) (raw : PyVal) (entry : CalcEntry)
    (cd : CacheData) (isPort : Bool) (pk : String) (clock : Rat) (c p : Rat)
    (hcalc : entry.calcKind = some ("diff")) (hmath : entry.math = none)
    (hprev : cd.previous.isSome = true)
    (hc : pyFloat raw = some c)
    (hp : ((prevRawOf cd entry isPort pk).join).bind parsePyFloat = some p)
    (he : 0 < clock - prevTsOf cd entry isPort pk) :
    applyCalc evalF raw entry cd isPort pk clock =
      if c < p then PyVal.pnone
      else PyVal.pnum (rnd2 ((c - p) / (clock - prevTsOf cd entry isPort pk))) := by
  obtain ⟨sv, hjs, hps⟩ :
      ∃ sv, (prevRawOf cd entry isPort pk).join = some sv ∧ parsePyFloat sv = some p := by
    rcases hj : (prevRawOf cd entry isPort pk).join with _ | sv
    · rw [hj] at hp
      simp at hp
    · rw [hj] at hp
      exact ⟨sv, rfl, hp⟩
  have hpr : prevRawOf cd entry isPort pk = some (some sv) := by
    rcases hv : prevRawOf cd entry isPort pk with _ | v
    · rw [hv] at hjs
      exact Option.noConfusion (hjs : (none : Option String) = some sv)
    · rw [hv] at hjs
      cases v with
      | none => exact Option.noConfusion (hjs : (none : Option String) = some sv)
      | some t =>
          have h2 : some t = some sv := hjs
          rw [Option.some.inj h2]
  have hprev2 : cd.previous.isNone = false := by
    rcases hpv : cd.previous with _ | pc
    · rw [hpv] at hprev
      simp at hprev
    · rfl
  have hne : ¬ (clock - prevTsOf cd entry isPort pk ≤ 0) := not_le.mpr he
  have hsd : ¬ (("diff" : String) = "direct") := by decide
  unfold applyCalc
  rw [hcalc]
  by_cases hlt : c < p <;>
    simp [hpr, hps, hprev2, hne, hc, hmath, hlt, hsd]

/-- C5 counterexample: two runs of apply_calc on identical raw value,
    descriptor, previous sample and previous timestamp, differing only in
    the value produced by the hidden internal clock read (10 versus 25),
    give different outputs (rate 5 versus rate 2): the transform has no
    explicit now parameter and its output depends on a hidden clock read,
    so it is not deterministic in the inputs the claim lists. -/
theorem c5_counterexample :
    applyCalc evalIdF (.pstr ("150")) entryDiff cdPrev false ("") 10 ≠
      applyCalc evalIdF (.pstr ("150")) entryDiff cdPrev false ("") 25 := by
  have ht : prevTsOf cdPrev entryDiff false ("") = 0 := rfl
  have h10 := applyCalc_diff evalIdF (.pstr ("150")) entryDiff cdPrev false ("") 10 150 100
    rfl rfl rfl rfl rfl (by rw [ht]; norm_num)
  have h25 := applyCalc_diff evalIdF (.pstr ("150")) entryDiff cdPrev false ("") 25 150 100
    rfl rfl rfl rfl rfl (by rw [ht]; norm_num)
  rw [ht] at h10 h25
  rw [h10, h25]
  rw [if_neg (by norm_num), if_neg (by norm_num)]
  have e10 : ((150 : Rat) - 100) / (10 - 0) = 5 := by norm_num
  have e25 : ((150 : Rat) - 100) / (25 - 0) = 2 := by norm_num
  rw [e10, e25]
  have r5 : rnd2 5 = 5 := by
    unfold rnd2 roundHalfEven
    norm_num
  have r2 : rnd2 2 = 2 := by
    unfold rnd2 roundHalfEven
    norm_num
  rw [r5, r2]
  intro h
  have := PyVal.pnum.inj h
  norm_num at this

/-- C5 (amended): apply_calc is deterministic given its inputs together
    with the value of its internal clock read, and for every non-rate
    descriptor the output does not depend on that clock read at all; only
    the diff branch consults the hidden clock (and no explicit now
    parameter exists in the source). -/
theorem c5_clock_independent (evalF : String → PyVal → PyVal) (raw : PyVal)
    (entry : CalcEntry) (cd : CacheData) (isPort : Bool) (pk : String) (t1 t2 : Rat)
    (h : entry.calcKind.getD ("direct") ≠ "diff") :
    applyCalc evalF raw entry cd isPort pk t1 = applyCalc evalF raw entry cd isPort pk t2 := by
  unfold applyCalc
  by_cases hd : entry.calcKind.getD ("direct") = "direct" <;> simp [hd, h]

/-- C5 amended witness: a direct descriptor yields the same output at two
    different internal clock values. -/
theorem c5_clock_independent_witness :
    applyCalc evalIdF (.pstr ("7")) {} cdPrev false ("") 10 =
      applyCalc evalIdF (.pstr ("7")) {} cdPrev false ("") 25 :=
  c5_clock_independent evalIdF (.pstr ("7")) {} cdPrev false ("") 10 25 (by decide)

/-- C7: for a rate descriptor without a formula, given a truthy previous
    snapshot, numeric previous sample, numeric current value and positive
    elapsed time, apply_calc yields None whenever the current value is
    below the previous one (never a negative rate), and otherwise yields
    the difference divided by the elapsed time rounded to two decimals. -/
theorem c7_rate_guard (evalF : String → PyVal → PyVal) (raw : PyVal) (entry : CalcEntry)
    (cd : CacheData) (isPort : Bool) (pk : String) (clock : Rat) (c p : Rat)
    (hcalc : entry.calcKind = some ("diff")) (hmath : entry.math = none)
    (hprev : cd.previous.isSome = true)
    (hc : pyFloat raw = some c)
    (hp : ((prevRawOf cd entry isPort pk).join).bind parsePyFloat = some p)
    (he : 0 < clock - prevTsOf cd entry isPort pk) :
    (c < p → applyCalc evalF raw entry cd isPort pk clock = PyVal.pnone) ∧
    (p ≤ c → applyCalc evalF raw entry cd isPort pk clock =
      PyVal.pnum (rnd2 ((c - p) / (clock - prevTsOf cd entry isPort pk)))) := by
  have h := applyCalc_diff evalF raw entry cd isPort pk clock c p hcalc hmath hprev hc hp he
  constructor
  · intro hlt
    rw [h, if_pos hlt]
  · intro hle
    rw [h, if_neg (not_lt.mpr hle)]

/-- C7 witness: previous 100 at time 0 and current 150 at time 10 give a
    rate of 5, matching the testable property of the specification. -/
theorem c7_rate_guard_witness :
    applyCalc evalIdF (.pstr ("150")) entryDiff cdPrev false ("") 10 = PyVal.pnum 5 := by
  have ht : prevTsOf cdPrev entryDiff false ("") = 0 := rfl
  have h := (c7_rate_guard evalIdF (.pstr ("150")) entryDiff cdPrev false ("") 10 150 100
    rfl rfl rfl rfl rfl (by rw [ht]; norm_num)).2 (by norm_num)
  rw [h, ht]
  have e10 : ((150 : Rat) - 100) / (10 - 0) = 5 := by norm_num
  rw [e10]
  have r5 : rnd2 5 = 5 := by
    unfold rnd2 roundHalfEven
    norm_num
  rw [r5]

/-! ### C10: index discovery -/

theorem idxLoop_inv (nb : String) (m : Nat) (rs : List NextResp) :
    ∀ acc cnt, acc.Nodup → (∀ s ∈ acc, ∃ i : Int, s = toString i ∧ i ≤ (m : Int)) →
      (idxLoop nb m rs acc cnt).Nodup ∧
      (∀ s ∈ idxLoop nb m rs acc cnt, ∃ i : Int, s = toString i ∧ i ≤ (m : Int)) := by
  induction rs with
  | nil =>
      intro acc cnt h1 h2
      exact ⟨h1, h2⟩
  | cons r rest ih =>
      intro acc cnt h1 h2
      cases r with
      | err =>
          simp only [idxLoop]
          split
          · exact ⟨h1, h2⟩
          · exact ⟨h1, h2⟩
      | noRes =>
          simp only [idxLoop]
          split
          · exact ⟨h1, h2⟩
          · exact ⟨h1, h2⟩
      | next oid =>
          simp only [idxLoop]
          split
          · split
            · exact ⟨h1, h2⟩
            · split
              · exact ⟨h1, h2⟩
              · split
                · exact ⟨h1, h2⟩
                · split
                  · exact ⟨h1, h2⟩
                  · rename_i idx heq hidx
                    split
                    · exact ih acc cnt h1 h2
                    · rename_i hmem
                      refine ih _ _ ?_ ?_
                      · simp [List.nodup_append, h1, hmem]
                      · intro s hs
                        rcases List.mem_append.mp hs with h | h
                        · exact h2 s h
                        · rcases List.mem_singleton.mp h with rfl
                          exact ⟨idx, rfl, not_lt.mp hidx⟩
          · exact ⟨h1, h2⟩

/-- C10: for every root identifier and every maxCount, index discovery
    returns a duplicate-free list, sorted in the lexicographic string
    order (so 10 orders before 2), never containing an index whose numeric
    value exceeds maxCount; and the loop returns the indices collected so
    far, rather than raising, as soon as a response errors. -/
theorem c10_index_discovery (b : String) (m : Nat) (resps : List NextResp) :
    (getSubtreeIdxList b m resps).Nodup ∧
    List.Sorted (fun x y => x ≤ y) (getSubtreeIdxList b m resps) ∧
    (∀ s ∈ getSubtreeIdxList b m resps, ∃ i : Int, s = toString i ∧ i ≤ (m : Int)) ∧
    (∀ rest acc cnt, idxLoop (stripDots b) m (NextResp.err :: rest) acc cnt = acc) := by
  obtain ⟨h1, h2⟩ := idxLoop_inv (stripDots b) m resps [] 0 List.nodup_nil (by simp)
  refine ⟨?_, ?_, ?_, ?_⟩
  · exact ((List.perm_insertionSort _ _).nodup_iff).mpr h1
  · have hs : List.Sorted (fun x y => strLeB x y = true) (getSubtreeIdxList b m resps) := by
      haveI : IsTrans String (fun x y => strLeB x y = true) :=
        ⟨fun x y z hxy hyz => by
          rw [strLeB_le] at hxy hyz ⊢
          exact le_trans hxy hyz⟩
      haveI : IsTotal String (fun x y => strLeB x y = true) :=
        ⟨fun x y => by
          rw [strLeB_le, strLeB_le]
          exact le_total x y⟩
      exact List.sorted_insertionSort _ _
    exact hs.imp (fun h => (strLeB_le _ _).mp h)
  · intro s hs
    exact h2 s ((List.mem_insertionSort _).mp hs)
  · intro rest acc cnt
    simp only [idxLoop]
    split
    · rfl
    · rfl

/-- The GETNEXT transcript used by the C10 witness: two in-subtree rows
    with numeric suffixes 2 and 10. -/
def resps10 : List NextResp := [NextResp.next ("1.2.2"), NextResp.next ("1.2.10")]

/-- C10 witness: on a concrete walk collecting 2 then 10, the result is
    the string-sorted, duplicate-free list with 10 before 2, and every
    member is numerically bounded by maxCount 50. -/
theorem c10_index_discovery_witness :
    (∃ i : Int, ("10" : String) = toString i ∧ i ≤ (50 : Int)) ∧
    getSubtreeIdxList ("1.2") 50 resps10 = ["10", "2"] := by
  refine ⟨(c10_index_discovery ("1.2") 50 resps10).2.2.1 ("10") ?_, ?_⟩
  · decide
  · decide

end Snmp
